import Mathlib

/-!
Shallow embedding of the constraint-generation rules of
`calliope/constraints/base.py` (model-construction engine of the
calliope energy-system model), together with theorems checking the
natural-language specification against these rules.

Modelling conventions:
* Pyomo constraint rules are embedded as total Lean functions that take
  the relevant option values, set-membership flags, parameter data and
  the values of the decision variables at the indices the rule touches,
  and return the generated (already evaluated) constraint.
* `Constr` is the generated constraint between two rational sides;
  `Constr.noConstraint` models `cp.Constraint.NoConstraint`.
* Options that can hold the IEEE infinity (`np.isinf` checks in the
  source) are modelled by `Qinf`; `CapConstr` is a constraint whose
  right-hand side may be such an extended value.
* Time resolutions (`m.time_res`) are modelled as natural numbers of
  hours, so `(1 - s_loss) ** time_res` is ordinary `npow` on `ℚ`.
* Python's `try: ... / e_eff except ZeroDivisionError: 0` is modelled
  by an explicit test `if e_eff = 0 then 0 else _ / e_eff`.
-/

namespace Calliope

/-- Run mode of the model: capacity planning (`plan`) or fixed
operation (`operate`). -/
inductive Mode where
  | plan
  | operate
deriving DecidableEq, Repr

/-- A generated constraint with both sides evaluated to rationals;
`noConstraint` is Pyomo's `Constraint.NoConstraint` sentinel. -/
inductive Constr where
  | noConstraint
  | eq (lhs rhs : ℚ)
  | le (lhs rhs : ℚ)
  | ge (lhs rhs : ℚ)
deriving DecidableEq, Repr

/-- Satisfaction of a generated constraint. -/
def Constr.holds : Constr → Prop
  | .noConstraint => True
  | .eq a b => a = b
  | .le a b => a ≤ b
  | .ge a b => a ≥ b

instance (c : Constr) : Decidable c.holds := by
  cases c <;> simp [Constr.holds] <;> infer_instance

/-- A rational extended with the IEEE infinity that `np.isinf` tests
for in the source. -/
inductive Qinf where
  | fin (q : ℚ)
  | inf
deriving DecidableEq, Repr

/-- `np.isinf`. -/
def Qinf.isinf : Qinf → Bool
  | .fin _ => false
  | .inf => true

/-- Multiplication of a possibly-infinite option value by a (positive)
finite scale, as the float arithmetic in the source does. -/
def Qinf.scale : Qinf → ℚ → Qinf
  | .fin q, c => .fin (q * c)
  | .inf, _ => .inf

/-- `s_time_max * e_cap_max / e_eff_ref` where `e_cap_max` may be
infinite (float arithmetic of `c_s_cap_rule`). -/
def Qinf.mulDiv (a : ℚ) : Qinf → ℚ → Qinf
  | .fin q, c => .fin (a * q / c)
  | .inf, _ => .inf

/-- A generated capacity constraint: left side is a variable value,
right side may be infinite. -/
inductive CapConstr where
  | noConstraint
  | eq (lhs : ℚ) (rhs : Qinf)
  | le (lhs : ℚ) (rhs : Qinf)
deriving DecidableEq, Repr

/-- Satisfaction of a capacity constraint: no real equals infinity,
and every real is `≤` infinity. -/
def CapConstr.holds : CapConstr → Prop
  | .noConstraint => True
  | .eq a (.fin b) => a = b
  | .eq _ .inf => False
  | .le a (.fin b) => a ≤ b
  | .le _ .inf => True

instance (c : CapConstr) : Decidable c.holds := by
  cases c with
  | noConstraint => simp [CapConstr.holds]; infer_instance
  | eq a b => cases b <;> simp [CapConstr.holds] <;> infer_instance
  | le a b => cases b <;> simp [CapConstr.holds] <;> infer_instance

/-! ## `node_energy_balance` rules -/

/-- `get_e_eff` of `node_energy_balance`: the per-timestep efficiency
parameter `m.e_eff[y, x, t]` when `y ∈ m.y_def_e_eff`, otherwise the
0-th entry of the efficiency DataFrame `d.e_eff[y][x][0]`. -/
def get_e_eff (y_def_e_eff : Bool) (e_eff_var e_eff_const : ℚ) : ℚ :=
  if y_def_e_eff then e_eff_var else e_eff_const

/-- `c_rs_rule`: resource availability constraint for one `(y, x, t)`.
`this_r` is the raw resource signal `m.r[y, x, t]`; `rs` and `r_area`
are the values of the corresponding decision variables. -/
def c_rs_rule (y_def_r : Bool) (this_r r_scale r_area r_eff : ℚ)
    (force_r : Bool) (rs : ℚ) : Constr :=
  if ¬y_def_r then .noConstraint
  else
    let r_avail := this_r * r_scale * r_area * r_eff
    if force_r then .eq rs r_avail
    else if this_r > 0 then .le rs r_avail
    else .ge rs r_avail

/-- `c_s_balance_pc_rule`: storage balance for one `(y, x, t)` with
`y ∈ m.y_pc`.  `carriers` enumerates `m.c`; `es_prod`/`es_con` give
the values of the carrier production/consumption variables at
`(·, y, x, t)`; `order_t` is `m.t.order_dict[t]` (first timestep has
order 1); `time_res_prev` is `m.time_res[model.prev(t)]`;
`s_prev` is the value of `m.s[y, x, model.prev(t)]`; `s_init_data`
is the `model.data.s_init` table entry when the table is present;
`s_init_opt` is the configured `s_init` option; `s_t` is the value of
`m.s[y, x, t]`. -/
def c_s_balance_pc_rule {C : Type} (carriers : List C)
    (y_def_e_eff : Bool) (e_eff_var e_eff_const : ℚ)
    (s_cap_max : Qinf) (s_loss : ℚ) (time_res_prev : ℕ) (order_t : ℕ)
    (mode : Mode) (s_init_data : Option ℚ) (s_init_opt : ℚ)
    (es_prod es_con : C → ℚ) (rs s_prev s_t : ℚ) : Constr :=
  let e_eff := get_e_eff y_def_e_eff e_eff_var e_eff_const
  -- try/except ZeroDivisionError around the efficiency division
  let es_prod_term : ℚ :=
    if e_eff = 0 then 0 else (carriers.map es_prod).sum / e_eff
  -- A) Case where no storage allowed
  if s_cap_max = .fin 0 then
    .eq 0 (rs - es_prod_term - (carriers.map es_con).sum * e_eff)
  -- B) Case where storage is allowed
  else
    let s_minus_one : ℚ :=
      if order_t > 1 then
        (1 - s_loss) ^ time_res_prev * s_prev
      else
        match mode, s_init_data with
        | .operate, some v => v
        | _, _ => s_init_opt
    .eq s_t (s_minus_one + rs - es_prod_term
              - (carriers.map es_con).sum * e_eff)

/-- `c_s_balance_transmission_rule`: transmission balance for one
`(y, x, t)` with `y ∈ m.y_trans`; `remote_is_transmission` is the test
`y_remote in model.data.transmission_y` and `es_con_remote` the value
of `m.es_con[c, y_remote, x_remote, t]`. -/
def c_s_balance_transmission_rule (remote_is_transmission : Bool)
    (y_def_e_eff : Bool) (e_eff_var e_eff_const : ℚ)
    (es_prod_local es_con_remote : ℚ) : Constr :=
  if remote_is_transmission then
    .eq es_prod_local
      (-1 * es_con_remote * get_e_eff y_def_e_eff e_eff_var e_eff_const)
  else .noConstraint

/-- `c_s_balance_conversion_rule`: conversion balance for one
`(y, x, t)` with `y ∈ m.y_conv`, between the produced carrier and the
source carrier. -/
def c_s_balance_conversion_rule (y_def_e_eff : Bool)
    (e_eff_var e_eff_const : ℚ)
    (es_prod_cprod es_con_csource : ℚ) : Constr :=
  .eq es_prod_cprod
    (-1 * es_con_csource * get_e_eff y_def_e_eff e_eff_var e_eff_const)

/-! ## `node_constraints_build` rules -/

/-- `c_s_cap_rule`: storage-capacity constraint for one `(y, x)` with
`y ∈ m.y_pc`.  When `use_s_time` is set the capacity bound is computed
as `s_time_max * e_cap_max / e_eff_ref`, otherwise it is the
`s_cap_max` option; `s_cap` is the value of `m.s_cap[y, x]`. -/
def c_s_cap_rule (max_force use_s_time : Bool) (s_time_max : ℚ)
    (e_cap_max : Qinf) (e_eff_ref : ℚ) (s_cap_max_opt : Qinf)
    (mode : Mode) (s_cap : ℚ) : CapConstr :=
  let s_cap_max : Qinf :=
    if use_s_time then Qinf.mulDiv s_time_max e_cap_max e_eff_ref
    else s_cap_max_opt
  if max_force || mode == .operate then .eq s_cap s_cap_max
  else .le s_cap s_cap_max

/-- `c_r_cap_rule`: resource-to-storage conversion capacity constraint
for one `(y, x)` with `y ∈ m.y_def_r`. -/
def c_r_cap_rule (r_cap_max : Qinf) (mode : Mode) (r_cap : ℚ) :
    CapConstr :=
  if r_cap_max.isinf then .noConstraint
  else if mode == .plan then .le r_cap r_cap_max
  else .eq r_cap r_cap_max

/-- Python truthiness of the `r_area_per_e_cap` option (`False`/absent
is modelled by `none`; the float `0.0` is also falsy). -/
def optTruthy (o : Option ℚ) : Bool :=
  match o with
  | none => false
  | some v => v != 0

/-- `c_r_area_rule`: resource-collector area constraint for one
`(y, x)` with `y ∈ m.y_def_r`.  `r_area_max = none` models the option
being `False`. -/
def c_r_area_rule (area_per_cap : Option ℚ) (eff_ref : ℚ)
    (r_area_max : Option Qinf) (mode : Mode) (e_cap r_area : ℚ) :
    CapConstr :=
  if optTruthy area_per_cap then
    .eq r_area (.fin (e_cap * (area_per_cap.getD 0 / eff_ref)))
  else
    match r_area_max with
    | none => .eq r_area (.fin 1)
    | some rmax =>
        if mode == .plan then .le r_area rmax
        else .eq r_area rmax

/-- `c_e_cap_rule`: carrier conversion capacity constraint for one
`(y, x)`.  `loc_permits` models `d.locations.ix[x, y] == 1`. -/
def c_e_cap_rule (loc_permits : Bool) (e_cap_max : Qinf)
    (e_cap_max_scale : ℚ) (e_cap_max_force : Bool) (mode : Mode)
    (e_cap : ℚ) : CapConstr :=
  if ¬loc_permits then .eq e_cap (.fin 0)
  else if e_cap_max.isinf then .noConstraint
  else if e_cap_max_force || mode == .operate then
    .eq e_cap (e_cap_max.scale e_cap_max_scale)
  else .le e_cap (e_cap_max.scale e_cap_max_scale)

/-! ## `node_constraints_operational` rules -/

/-- `c_es_prod_max_rule`: carrier production bound for one
`(c, y, x, t)`; `carrier_y` is the technology's declared carrier. -/
def c_es_prod_max_rule {C : Type} [DecidableEq C] (c carrier_y : C)
    (time_res_t : ℕ) (e_cap es_prod : ℚ) : Constr :=
  if c = carrier_y then .le es_prod ((time_res_t : ℚ) * e_cap)
  else .eq es_prod 0

/-- `c_es_con_max_rule`: carrier consumption bound for one
`(c, y, x, t)`; `e_can_be_negative` is the technology option of the
same name. -/
def c_es_con_max_rule {C : Type} [DecidableEq C]
    (e_can_be_negative : Bool) (c carrier_y : C) (time_res_t : ℕ)
    (e_cap es_con : ℚ) : Constr :=
  if e_can_be_negative && c = carrier_y then
    .ge es_con (-1 * (time_res_t : ℚ) * e_cap)
  else .eq es_con 0

/-- `c_s_max_rule`: stored energy is bounded by installed storage
capacity. -/
def c_s_max_rule (s_t s_cap : ℚ) : Constr :=
  .le s_t s_cap

/-! ## `transmission_constraints` rule -/

/-- `c_transmission_capacity_rule`: for one `(y, x)` with
`y ∈ m.y_trans`, whose remote counterpart `(y_remote, x_remote)` is
given by `transmission.get_remotes`; `remote_is_transmission` is the
test `y_remote in model.data.transmission_y` and `e_cap_remote` the
value of `m.e_cap[y_remote, x_remote]`. -/
def c_transmission_capacity_rule (remote_is_transmission : Bool)
    (e_cap_local e_cap_remote : ℚ) : Constr :=
  if remote_is_transmission then .eq e_cap_local e_cap_remote
  else .noConstraint

/-! ## `node_costs` rules -/

/-- `_depreciation_rate` of `node_costs`: `1 / plant_life` at zero
interest, the annuity formula otherwise. -/
def depreciation_rate (interest : ℚ) (plant_life : ℕ) : ℚ :=
  if interest = 0 then 1 / (plant_life : ℚ)
  else (interest * (1 + interest) ^ plant_life)
        / ((1 + interest) ^ plant_life - 1)

/-- `c_cost_con_rule`: construction-cost constraint for one
`(y, x, k)`.  `cost_s_cap`, `cost_r_cap`, `cost_r_area`, `cost_e_cap`
are the per-unit costs resolved by `_cost`; `time_res_list` enumerates
`m.time_res[t]` over `m.t`; `cost_con` is the value of
`m.cost_con[y, x, k]`. -/
def c_cost_con_rule (y_pc y_def_r : Bool)
    (cost_s_cap cost_r_cap cost_r_area cost_e_cap : ℚ)
    (interest : ℚ) (plant_life : ℕ) (time_res_list : List ℕ)
    (s_cap r_cap r_area e_cap cost_con : ℚ) : Constr :=
  let cs : ℚ := if y_pc then cost_s_cap * s_cap else 0
  let crc : ℚ := if y_def_r then cost_r_cap * r_cap else 0
  let cra : ℚ := if y_def_r then cost_r_area * r_area else 0
  .eq cost_con
    (depreciation_rate interest plant_life
      * ((time_res_list.map (fun n => (n : ℚ))).sum / 8760)
      * (cs + crc + cra + cost_e_cap * e_cap))

/-! ## `model_constraints` rule -/

/-- `c_system_balance_rule`: system balance for one `(c, x, t)`.
`is_parent` models `x ∈ get_parents(1)`; `children` is
`get_children(x)`; the family is `children ++ [x]`; `ys` enumerates
`m.y`; `es_prod`/`es_con` give the variable values at
`(c, ·, ·, t)`.  The carrier literally named `power` in the source is
the distinguished `power` argument. -/
def c_system_balance_rule {C X Y : Type} [DecidableEq C]
    (power c : C) (is_parent : Bool) (children : List X) (x : X)
    (ys : List Y) (es_prod es_con : Y → X → ℚ) : Constr :=
  if ¬is_parent then .noConstraint
  else
    let fam := children ++ [x]
    let prodSum :=
      (fam.map (fun xs => (ys.map (fun y => es_prod y xs)).sum)).sum
    let conSum :=
      (fam.map (fun xs => (ys.map (fun y => es_con y xs)).sum)).sum
    if c = power then .eq (prodSum + conSum) 0
    else .ge (prodSum + conSum) 0

/-! ## Spec-side definitions

These formalise sentences of the specification verbatim, to be compared
with the rules embedded from the source above. -/

/-- The net carrier flow of the storage balance: the efficiency-divided
production term (degrading to zero at zero efficiency) plus the
efficiency-weighted consumption term. -/
def netCarrierFlow {C : Type} (carriers : List C) (e_eff : ℚ)
    (es_prod es_con : C → ℚ) : ℚ :=
  (if e_eff = 0 then 0 else (carriers.map es_prod).sum / e_eff)
  + (carriers.map es_con).sum * e_eff

/-- The storage-balance constraint exactly as the spec's sentence claims
it for a timestep with a predecessor:
`storage(t) = storage(t-1) * (1 - loss) ^ duration(t) + resource_flow(t)
- net_carrier_flow(t)`, with the loss exponent being the CURRENT
timestep's duration `time_res_t`. -/
def specClaimedBalanceStep (s_loss : ℚ) (time_res_t : ℕ)
    (s_prev rs net_flow s_t : ℚ) : Constr :=
  .eq s_t ((1 - s_loss) ^ time_res_t * s_prev + rs - net_flow)

/-! ## C1: loss exponent in the storage balance -/

/-- C1, counterexample.  The spec claims the loss exponent is the
current timestep's duration; the source uses
`m.time_res[model.prev(t)]`, the predecessor's.  Concrete input: a
storage-capable technology (`s_cap_max = 1`), `s_loss = 1/2`, the
predecessor timestep lasting 2 hours and the current one 1 hour,
`s_prev = 1`, all flows zero.  The generated constraint carries the
carried-over amount `(1/2)^2 = 1/4`, while the claimed constraint
carries `(1/2)^1 = 1/2`. -/
theorem c1_loss_exponent_counterexample :
    c_s_balance_pc_rule [()] false 0 1 (.fin 1) (1/2) 2 2 .plan none 0
        (fun _ => 0) (fun _ => 0) 0 1 0
      = .eq 0 ((1/4 : ℚ) + 0 - 0 - 0 * 1)
    ∧ c_s_balance_pc_rule [()] false 0 1 (.fin 1) (1/2) 2 2 .plan none 0
        (fun _ => 0) (fun _ => 0) 0 1 0
      ≠ specClaimedBalanceStep (1/2) 1 1 0
          (netCarrierFlow [()] (get_e_eff false 0 1)
            (fun _ => 0) (fun _ => 0)) 0 := by
  norm_num [c_s_balance_pc_rule, specClaimedBalanceStep, netCarrierFlow,
    get_e_eff]

/-- C1, amended: for a storage-capable technology (`s_cap_max ≠ 0`) and
a timestep with a predecessor, the generated storage-balance constraint
is `storage(t) = storage(t-1) * (1 - s_loss) ^ duration(prev t)
+ resource_flow(t) - net_carrier_flow(t)` — the loss exponent is the
PREDECESSOR timestep's duration. -/
theorem c1_balance_uses_predecessor_duration {C : Type}
    (carriers : List C) (y_def_e_eff : Bool) (e_eff_var e_eff_const : ℚ)
    (s_cap_max : Qinf) (s_loss : ℚ) (time_res_prev order_t : ℕ)
    (mode : Mode) (s_init_data : Option ℚ) (s_init_opt : ℚ)
    (es_prod es_con : C → ℚ) (rs s_prev s_t : ℚ)
    (h1 : 1 < order_t) (h2 : s_cap_max ≠ .fin 0) :
    c_s_balance_pc_rule carriers y_def_e_eff e_eff_var e_eff_const
        s_cap_max s_loss time_res_prev order_t mode s_init_data
        s_init_opt es_prod es_con rs s_prev s_t
      = specClaimedBalanceStep s_loss time_res_prev s_prev rs
          (netCarrierFlow carriers (get_e_eff y_def_e_eff e_eff_var e_eff_const)
            es_prod es_con) s_t := by
  simp only [c_s_balance_pc_rule, specClaimedBalanceStep, netCarrierFlow,
    if_neg h2, if_pos h1]
  congr 1
  ring

/-- C1, witness for the amended theorem at the counterexample's inputs
(now with the predecessor's duration as the exponent). -/
theorem c1_balance_uses_predecessor_duration_witness :
    c_s_balance_pc_rule [()] false 0 1 (.fin 1) (1/2) 2 2 .plan none 0
        (fun _ => 0) (fun _ => 0) 0 1 0
      = specClaimedBalanceStep (1/2) 2 1 0
          (netCarrierFlow [()] (get_e_eff false 0 1)
            (fun _ => 0) (fun _ => 0)) 0 :=
  c1_balance_uses_predecessor_duration [()] false 0 1 (.fin 1) (1/2)
    2 2 .plan none 0 (fun _ => 0) (fun _ => 0) 0 1 0
    (by decide) (by decide)

/-! ## C2: zero efficiency degrades production to zero -/

/-- C2: when the efficiency used by the storage-balance rule is exactly
zero, the rule still produces a constraint (the embedding is total) and
the efficiency-divided production term has degraded to zero: the
generated constraint does not depend on the production variables at
all, so a zero-efficiency technology contributes zero production to the
balance regardless of its consumption. -/
theorem c2_zero_efficiency_zero_production {C : Type}
    (carriers : List C) (y_def_e_eff : Bool) (e_eff_var e_eff_const : ℚ)
    (s_cap_max : Qinf) (s_loss : ℚ) (time_res_prev order_t : ℕ)
    (mode : Mode) (s_init_data : Option ℚ) (s_init_opt : ℚ)
    (es_prod es_prod2 es_con : C → ℚ) (rs s_prev s_t : ℚ)
    (h : get_e_eff y_def_e_eff e_eff_var e_eff_const = 0) :
    c_s_balance_pc_rule carriers y_def_e_eff e_eff_var e_eff_const
        s_cap_max s_loss time_res_prev order_t mode s_init_data
        s_init_opt es_prod es_con rs s_prev s_t
      = c_s_balance_pc_rule carriers y_def_e_eff e_eff_var e_eff_const
          s_cap_max s_loss time_res_prev order_t mode s_init_data
          s_init_opt es_prod2 es_con rs s_prev s_t := by
  simp [c_s_balance_pc_rule, h]

/-- C2, witness: a technology with constant efficiency 0 generates the
same balance constraint whether its production variables are all 7 or
all 0. -/
theorem c2_zero_efficiency_zero_production_witness :
    c_s_balance_pc_rule [()] false 5 0 (.fin 1) (1/2) 1 1 .plan none 0
        (fun _ => 7) (fun _ => 0) 0 0 0
      = c_s_balance_pc_rule [()] false 5 0 (.fin 1) (1/2) 1 1 .plan none 0
          (fun _ => 0) (fun _ => 0) 0 0 0 :=
  c2_zero_efficiency_zero_production [()] false 5 0 (.fin 1) (1/2) 1 1
    .plan none 0 (fun _ => 7) (fun _ => 0) (fun _ => 0) 0 0 0 (by decide)

/-! ## C6: single-timestep horizon round-trip -/

/-- C6, counterexample.  Single-timestep horizon (`order_t = 1`),
forced initial storage `s0 = 1`, loss `1/2`, the step lasting 1 hour,
zero resource and carrier flows, efficiency 1.  The generated
constraint pins the realized storage to `s0 = 1`: the initial-storage
term is NOT multiplied by the loss factor, so the value
`s0 * (1 - loss) ^ duration = 1/2` claimed by the spec is infeasible. -/
theorem c6_initial_storage_no_loss_counterexample :
    (c_s_balance_pc_rule [()] false 0 1 (.fin 1) (1/2) 1 1 .plan none 1
        (fun _ => 0) (fun _ => 0) 0 0 1).holds
    ∧ ¬ (c_s_balance_pc_rule [()] false 0 1 (.fin 1) (1/2) 1 1 .plan none 1
        (fun _ => 0) (fun _ => 0) 0 0 (1 * (1 - 1/2) ^ 1)).holds := by
  norm_num [c_s_balance_pc_rule, Constr.holds, get_e_eff]

/-- C6, amended: on a single-timestep horizon (the timestep has order
1) with forced initial storage `s0`, a storage-capable technology and
zero resource and carrier flows, the generated balance constraint holds
exactly when the realized storage equals `s0` — no loss factor is
applied to the initial storage. -/
theorem c6_single_step_storage_equals_s_init {C : Type}
    (carriers : List C) (y_def_e_eff : Bool) (e_eff_var e_eff_const : ℚ)
    (s_cap_max : Qinf) (s_loss : ℚ) (time_res_prev : ℕ)
    (s_init_data : Option ℚ) (s0 s_prev s_t : ℚ)
    (h2 : s_cap_max ≠ .fin 0) :
    (c_s_balance_pc_rule carriers y_def_e_eff e_eff_var e_eff_const
        s_cap_max s_loss time_res_prev 1 .plan s_init_data s0
        (fun _ => 0) (fun _ => 0) 0 s_prev s_t).holds
      ↔ s_t = s0 := by
  simp only [c_s_balance_pc_rule, if_neg h2]
  norm_num [Constr.holds, List.map_const]

/-- C6, witness for the amended theorem: with `s0 = 1` and loss `1/2`
over a 1-hour step, the realized storage forced by the constraint is
exactly 1. -/
theorem c6_single_step_storage_equals_s_init_witness :
    (c_s_balance_pc_rule [()] false 0 1 (.fin 1) (1/2) 1 1 .plan none 1
        (fun _ => 0) (fun _ => 0) 0 0 1).holds ↔ (1 : ℚ) = 1 :=
  c6_single_step_storage_equals_s_init [()] false 0 1 (.fin 1) (1/2) 1
    none 1 0 1 (by decide)

/-! ## C3: resource availability bound direction -/

/-- C3, counterexample.  The spec claims the bound is an upper bound
whenever the raw resource signal is non-negative; the source tests
`this_r > 0` strictly, so a raw signal of exactly 0 falls into the
`else` branch and yields a LOWER bound.  Concrete input: `this_r = 0`,
all scale factors 1, `force_r` unset, `rs = 1`: the generated
constraint is `rs ≥ 0`, not the claimed `rs ≤ 0` (the two even disagree
on this point, since `1 ≥ 0` holds and `1 ≤ 0` does not). -/
theorem c3_zero_signal_counterexample :
    c_rs_rule true 0 1 1 1 false 1 = .ge 1 (0 * 1 * 1 * 1)
    ∧ c_rs_rule true 0 1 1 1 false 1 ≠ .le 1 (0 * 1 * 1 * 1)
    ∧ (Constr.ge 1 (0 * 1 * 1 * 1)).holds
    ∧ ¬ (Constr.le 1 (0 * 1 * 1 * 1)).holds := by
  refine ⟨by norm_num [c_rs_rule], ?_, by norm_num [Constr.holds],
    by norm_num [Constr.holds]⟩
  norm_num [c_rs_rule]
  exact fun h => Constr.noConfusion h

/-- C3, amended: for a resource-defined technology, with
`available = this_r * r_scale * r_area * r_eff`: if `force_r` is set
the generated constraint is `rs = available`; otherwise it is
`rs ≤ available` when the raw signal is STRICTLY positive and
`rs ≥ available` when the raw signal is zero or negative — the bound
direction is decided by the sign of the raw signal, not of the scaled
value. -/
theorem c3_resource_bound_direction
    (this_r r_scale r_area r_eff rs : ℚ) (force_r : Bool) :
    (force_r = true →
      c_rs_rule true this_r r_scale r_area r_eff force_r rs
        = .eq rs (this_r * r_scale * r_area * r_eff))
    ∧ (force_r = false → 0 < this_r →
      c_rs_rule true this_r r_scale r_area r_eff force_r rs
        = .le rs (this_r * r_scale * r_area * r_eff))
    ∧ (force_r = false → this_r ≤ 0 →
      c_rs_rule true this_r r_scale r_area r_eff force_r rs
        = .ge rs (this_r * r_scale * r_area * r_eff)) := by
  refine ⟨fun hf => ?_, fun hf hpos => ?_, fun hf hnonpos => ?_⟩
  · simp [c_rs_rule, hf]
  · simp [c_rs_rule, hf, hpos]
  · simp [c_rs_rule, hf, not_lt.mpr hnonpos]

/-! ## C4: no storage capability forces zero stored energy -/

/-- C4, counterexample.  The balance rule decides "no storage" from
the `s_cap_max` option alone, but `c_s_cap_rule` computes the capacity
bound from `s_time_max * e_cap_max / e_eff_ref` when `use_s_time` is
set, ignoring `s_cap_max`.  Concrete input: `s_cap_max = 0`,
`use_s_time` set with `s_time_max = 1`, `e_cap_max = 1`,
`e_eff_ref = 1`, plan mode, no force.  The valuation with
`s_cap = 1` and stored energy `s = 1` satisfies the storage-capacity
constraint, the storage-maximum constraint, the (instantaneous)
balance constraint and both non-negativity domains, yet its stored
energy is `1 ≠ 0`: a feasible solution with non-zero stored energy for
a technology whose `s_cap_max` is 0. -/
theorem c4_use_s_time_escape_counterexample :
    (c_s_cap_rule false true 1 (.fin 1) 1 (.fin 0) .plan 1).holds
    ∧ (c_s_max_rule 1 1).holds
    ∧ (c_s_balance_pc_rule [()] false 0 1 (.fin 0) 0 1 1 .plan none 0
        (fun _ => 0) (fun _ => 0) 0 0 1).holds
    ∧ (0 : ℚ) ≤ 1 ∧ (0 : ℚ) ≤ 1
    ∧ (1 : ℚ) ≠ 0 := by
  norm_num [c_s_cap_rule, c_s_max_rule, c_s_balance_pc_rule, get_e_eff,
    Qinf.mulDiv, CapConstr.holds, Constr.holds,
    show (Mode.plan == Mode.operate) = false from rfl]

/-- C4, amended: for a technology whose `s_cap_max` option is 0 and
that does not use the `use_s_time` capacity computation, any valuation
satisfying the storage-capacity constraint, the storage-maximum
constraint and the non-negativity domains of `s` and `s_cap` has
stored energy exactly 0 — in either run mode and with or without the
force flag — and the generated balance constraint is the
instantaneous form, mentioning neither the previous storage level nor
any initial storage. -/
theorem c4_no_storage_zero_stored_energy {C : Type}
    (carriers : List C) (y_def_e_eff : Bool) (e_eff_var e_eff_const : ℚ)
    (s_loss : ℚ) (time_res_prev order_t : ℕ) (mode : Mode)
    (s_init_data : Option ℚ) (s_init_opt : ℚ) (es_prod es_con : C → ℚ)
    (rs s_prev s_t s_cap : ℚ)
    (max_force : Bool) (s_time_max e_eff_ref : ℚ) (e_cap_max : Qinf)
    (hdom_s : 0 ≤ s_t) (hdom_cap : 0 ≤ s_cap)
    (hcap : (c_s_cap_rule max_force false s_time_max e_cap_max e_eff_ref
        (.fin 0) mode s_cap).holds)
    (hmax : (c_s_max_rule s_t s_cap).holds) :
    s_t = 0
    ∧ c_s_balance_pc_rule carriers y_def_e_eff e_eff_var e_eff_const
        (.fin 0) s_loss time_res_prev order_t mode s_init_data
        s_init_opt es_prod es_con rs s_prev s_t
      = .eq 0 (rs - netCarrierFlow carriers
          (get_e_eff y_def_e_eff e_eff_var e_eff_const) es_prod es_con) := by
  constructor
  · have hcap0 : s_cap ≤ 0 := by
      simp only [c_s_cap_rule, Bool.false_eq_true, if_false] at hcap
      by_cases h : (max_force || mode == Mode.operate) = true
      · rw [if_pos h] at hcap
        simp only [CapConstr.holds] at hcap
        exact le_of_eq hcap
      · rw [if_neg h] at hcap
        simpa only [CapConstr.holds] using hcap
    have hmax0 : s_t ≤ s_cap := by
      simpa only [c_s_max_rule, Constr.holds] using hmax
    linarith
  · simp only [c_s_balance_pc_rule, netCarrierFlow, eq_self_iff_true,
      if_true]
    congr 1
    ring

/-- C4, witness for the amended theorem: a plan-mode technology with
`s_cap_max = 0`, `s_cap = 0`, `s = 0` and zero flows. -/
theorem c4_no_storage_zero_stored_energy_witness :
    (0 : ℚ) = 0
    ∧ c_s_balance_pc_rule [()] false 0 1 (.fin 0) 0 1 1 .plan none 0
        (fun _ => 0) (fun _ => 0) 0 0 0
      = .eq 0 (0 - netCarrierFlow [()] (get_e_eff false 0 1)
          (fun _ => 0) (fun _ => 0)) :=
  c4_no_storage_zero_stored_energy [()] false 0 1 0 1 1 .plan none 0
    (fun _ => 0) (fun _ => 0) 0 0 0 0 false 0 1 (.fin 1)
    (by norm_num) (by norm_num)
    (by norm_num [c_s_cap_rule, CapConstr.holds,
      show (Mode.plan == Mode.operate) = false from rfl])
    (by norm_num [c_s_max_rule, Constr.holds])

/-! ## C5: capacity constraint selection table -/

/-- C5, counterexample.  The spec's selection table says that an
infinite configured maximum emits no constraint for each capacity
quantity; `c_s_cap_rule` has no infinity test, so a storage capacity
with `s_cap_max = inf` in plan mode (not forced, `use_s_time` unset)
still emits the constraint `s_cap ≤ inf` instead of none. -/
theorem c5_s_cap_inf_counterexample :
    c_s_cap_rule false false 0 (.fin 0) 1 .inf .plan 5 = .le 5 .inf
    ∧ CapConstr.le 5 .inf ≠ .noConstraint := by
  constructor
  · simp [c_s_cap_rule]
  · exact fun h => CapConstr.noConfusion h

/-- C5, amended: the per-rule selection actually implemented.
Storage capacity: pinned to the configured maximum when forced or in
operate mode, upper-bounded in plan mode, with NO infinite-max
suppression (some constraint is emitted for every input) and no
location test.  Resource conversion capacity: suppressed at infinite
maximum, upper-bounded in plan mode, pinned in operate mode (there is
no force flag).  Collector area: pinned to `e_cap * (ratio/eff_ref)`
when `r_area_per_e_cap` is truthy, pinned to 1 when `r_area_max` is
`False`, otherwise upper-bounded in plan mode and pinned in operate
mode (no infinite-max suppression, no location test).  Conversion
capacity: pinned to 0 when the location does not permit the
technology, suppressed at infinite maximum, pinned to
`e_cap_max * e_cap_max_scale` when forced or in operate mode, and
upper-bounded by that product in plan mode. -/
theorem c5_capacity_rule_selection (mode : Mode) (mf : Bool)
    (stm eer s_cap : ℚ) (ecm scm rcm : Qinf) (r_cap : ℚ)
    (apc : Option ℚ) (eff_ref : ℚ) (ram : Option Qinf)
    (e_cap r_area : ℚ) (permits fce : Bool) (scale : ℚ) :
    -- storage capacity
    ((mf = true ∨ mode = .operate) →
      c_s_cap_rule mf false stm ecm eer scm mode s_cap = .eq s_cap scm)
    ∧ (mf = false → mode = .plan →
      c_s_cap_rule mf false stm ecm eer scm mode s_cap = .le s_cap scm)
    ∧ c_s_cap_rule mf false stm ecm eer scm mode s_cap ≠ .noConstraint
    -- resource conversion capacity
    ∧ (rcm.isinf = true →
      c_r_cap_rule rcm mode r_cap = .noConstraint)
    ∧ (rcm.isinf = false → mode = .plan →
      c_r_cap_rule rcm mode r_cap = .le r_cap rcm)
    ∧ (rcm.isinf = false → mode = .operate →
      c_r_cap_rule rcm mode r_cap = .eq r_cap rcm)
    -- collector area
    ∧ (optTruthy apc = true →
      c_r_area_rule apc eff_ref ram mode e_cap r_area
        = .eq r_area (.fin (e_cap * (apc.getD 0 / eff_ref))))
    ∧ (optTruthy apc = false →
      c_r_area_rule apc eff_ref none mode e_cap r_area
        = .eq r_area (.fin 1))
    ∧ (∀ rmax : Qinf, optTruthy apc = false → mode = .plan →
      c_r_area_rule apc eff_ref (some rmax) mode e_cap r_area
        = .le r_area rmax)
    ∧ (∀ rmax : Qinf, optTruthy apc = false → mode = .operate →
      c_r_area_rule apc eff_ref (some rmax) mode e_cap r_area
        = .eq r_area rmax)
    -- conversion capacity
    ∧ (permits = false →
      c_e_cap_rule permits ecm scale fce mode e_cap = .eq e_cap (.fin 0))
    ∧ (permits = true → ecm.isinf = true →
      c_e_cap_rule permits ecm scale fce mode e_cap = .noConstraint)
    ∧ (permits = true → ecm.isinf = false → (fce = true ∨ mode = .operate) →
      c_e_cap_rule permits ecm scale fce mode e_cap
        = .eq e_cap (ecm.scale scale))
    ∧ (permits = true → ecm.isinf = false → fce = false → mode = .plan →
      c_e_cap_rule permits ecm scale fce mode e_cap
        = .le e_cap (ecm.scale scale)) := by
  refine ⟨?_, ?_, ?_, ?_, ?_, ?_, ?_, ?_, ?_, ?_, ?_, ?_, ?_, ?_⟩
  · rintro (h | h) <;> simp [c_s_cap_rule, h]
  · intro h1 h2
    simp [c_s_cap_rule, h1, h2]
  · intro h
    simp only [c_s_cap_rule, Bool.false_eq_true, if_false] at h
    by_cases hc : (mf || mode == Mode.operate) = true
    · rw [if_pos hc] at h
      exact CapConstr.noConfusion h
    · rw [if_neg hc] at h
      exact CapConstr.noConfusion h
  · intro h
    simp [c_r_cap_rule, h]
  · intro h1 h2
    simp [c_r_cap_rule, h1, h2]
  · intro h1 h2
    simp [c_r_cap_rule, h1, h2]
  · intro h
    simp [c_r_area_rule, h]
  · intro h
    simp [c_r_area_rule, h]
  · intro rmax h1 h2
    simp [c_r_area_rule, h1, h2]
  · intro rmax h1 h2
    simp [c_r_area_rule, h1, h2]
  · intro h
    simp [c_e_cap_rule, h]
  · intro h1 h2
    simp [c_e_cap_rule, h1, h2]
  · rintro h1 h2 (h3 | h3) <;> simp [c_e_cap_rule, h1, h2, h3]
  · intro h1 h2 h3 h4
    simp [c_e_cap_rule, h1, h2, h3, h4]

/-! ## C7: transmission link capacity symmetry -/

/-- C7: for a transmission technology whose remote counterpart is
itself a transmission entity, the generated constraint is exactly
`e_cap[y, x] = e_cap[y_remote, x_remote]`, so in every feasible
solution the capacity of a link equals the capacity of its mapped
remote endpoint.  (`transmission.get_remotes` is outside the embedded
module; the remote endpoint's capacity value enters as the parameter
`e_cap_remote`.) -/
theorem c7_transmission_capacity_symmetric (e_cap_local e_cap_remote : ℚ) :
    c_transmission_capacity_rule true e_cap_local e_cap_remote
      = .eq e_cap_local e_cap_remote
    ∧ ((c_transmission_capacity_rule true e_cap_local e_cap_remote).holds
        ↔ e_cap_local = e_cap_remote) := by
  constructor
  · simp [c_transmission_capacity_rule]
  · simp [c_transmission_capacity_rule, Constr.holds]

/-! ## C8: construction cost formula -/

/-- The depreciation rate exactly as the spec's sentence states it:
`rate = interest == 0 ? 1/plant_life
      : interest*(1+interest)^plant_life / ((1+interest)^plant_life - 1)`. -/
def specDepreciationRate (interest : ℚ) (plant_life : ℕ) : ℚ :=
  if interest = 0 then 1 / (plant_life : ℚ)
  else interest * (1 + interest) ^ plant_life
        / ((1 + interest) ^ plant_life - 1)

/-- The sum over applicable capacity components of
`capacity variable * its per-unit cost`, as the spec's sentence states
it: the storage-capacity component applies to `y ∈ y_pc`, the
resource-capacity and collector-area components to `y ∈ y_def_r`, the
conversion-capacity component always. -/
def specCapacityCostSum (y_pc y_def_r : Bool)
    (cost_s_cap cost_r_cap cost_r_area cost_e_cap : ℚ)
    (s_cap r_cap r_area e_cap : ℚ) : ℚ :=
  (((if y_pc then [(s_cap, cost_s_cap)] else [])
    ++ (if y_def_r then [(r_cap, cost_r_cap), (r_area, cost_r_area)]
        else [])
    ++ [(e_cap, cost_e_cap)]).map (fun p => p.1 * p.2)).sum

/-- C8: the generated construction-cost constraint pins
`cost_con[y, x, k]` to `depreciation_rate * (total duration / 8760) *
Σ (capacity component * per-unit cost)`, with the depreciation rate
given by `1/plant_life` at zero interest and by the annuity formula
otherwise. -/
theorem c8_construction_cost_formula (y_pc y_def_r : Bool)
    (cost_s_cap cost_r_cap cost_r_area cost_e_cap interest : ℚ)
    (plant_life : ℕ) (time_res_list : List ℕ)
    (s_cap r_cap r_area e_cap cost_con : ℚ) :
    c_cost_con_rule y_pc y_def_r cost_s_cap cost_r_cap cost_r_area
        cost_e_cap interest plant_life time_res_list
        s_cap r_cap r_area e_cap cost_con
      = .eq cost_con
          (specDepreciationRate interest plant_life
            * ((time_res_list.map (fun n => (n : ℚ))).sum / 8760)
            * specCapacityCostSum y_pc y_def_r cost_s_cap cost_r_cap
                cost_r_area cost_e_cap s_cap r_cap r_area e_cap)
    ∧ (interest = 0 →
        specDepreciationRate interest plant_life = 1 / (plant_life : ℚ))
    ∧ (interest ≠ 0 →
        specDepreciationRate interest plant_life
          = interest * (1 + interest) ^ plant_life
              / ((1 + interest) ^ plant_life - 1)) := by
  refine ⟨?_, fun h => by simp [specDepreciationRate, h],
    fun h => by simp [specDepreciationRate, h]⟩
  unfold c_cost_con_rule depreciation_rate specDepreciationRate
    specCapacityCostSum
  cases y_pc <;> cases y_def_r <;> simp <;> congr 1 <;> ring

/-! ## C9: system balance across a location family -/

/-- Sums of mapped rationals distribute over pointwise addition. -/
theorem sum_map_split {X : Type} (l : List X) (f g : X → ℚ) :
    (l.map fun a => f a + g a).sum = (l.map f).sum + (l.map g).sum := by
  induction l with
  | nil => simp
  | cons a t ih => simp [ih]; ring

/-- The total carrier flow over a parent location and its children, as
the spec's sentence states it: produced plus consumed flow summed over
the parent and every child. -/
def specFamilyFlow {X Y : Type} (children : List X) (x : X)
    (ys : List Y) (es_prod es_con : Y → X → ℚ) : ℚ :=
  ((children ++ [x]).map (fun xs =>
    (ys.map (fun y => es_prod y xs)).sum
    + (ys.map (fun y => es_con y xs)).sum)).sum

/-- C9: for a parent location, the generated system-balance constraint
sums produced plus consumed flow over the location and its children;
for the strictly-balanced carrier (`power`) it requires that total to
be exactly zero, and for every other carrier to be non-negative. -/
theorem c9_system_balance {C X Y : Type} [DecidableEq C]
    (power c : C) (children : List X) (x : X) (ys : List Y)
    (es_prod es_con : Y → X → ℚ) :
    ((c_system_balance_rule power power true children x ys
        es_prod es_con).holds
      ↔ specFamilyFlow children x ys es_prod es_con = 0)
    ∧ (c ≠ power →
      ((c_system_balance_rule power c true children x ys
          es_prod es_con).holds
        ↔ 0 ≤ specFamilyFlow children x ys es_prod es_con)) := by
  constructor
  · simp only [c_system_balance_rule, specFamilyFlow, Constr.holds,
      sum_map_split, if_neg, not_true, ite_not, if_pos rfl,
      Bool.not_true, Bool.false_eq_true, if_false, List.map_append,
      List.map_cons, List.map_nil, List.sum_append, List.sum_cons,
      List.sum_nil, add_zero, eq_self_iff_true, if_true]
    constructor <;> intro hh <;> linarith
  · intro h
    simp only [c_system_balance_rule, specFamilyFlow, Constr.holds, h,
      sum_map_split, Bool.not_true, Bool.false_eq_true, if_false,
      List.map_append, List.map_cons, List.map_nil, List.sum_append,
      List.sum_cons, List.sum_nil, add_zero, if_neg h, ge_iff_le,
      eq_self_iff_true, not_true, if_true]
    constructor <;> intro hh <;> linarith

/-! ## C10: only the declared carrier flows at the grid interface -/

/-- C10: if `c` is not the technology's declared carrier, the
production bound degenerates to `es_prod = 0`; and unless both
`e_can_be_negative` is set and `c` is the declared carrier, the
consumption bound degenerates to `es_con = 0` — so at the grid
interface a technology can only produce or consume its own declared
carrier. -/
theorem c10_foreign_carrier_flows_zero {C : Type} [DecidableEq C]
    (c carrier_y : C) (e_can_be_negative : Bool) (time_res_t : ℕ)
    (e_cap es_prod es_con : ℚ) :
    (c ≠ carrier_y →
      c_es_prod_max_rule c carrier_y time_res_t e_cap es_prod
        = .eq es_prod 0
      ∧ ((c_es_prod_max_rule c carrier_y time_res_t e_cap
          es_prod).holds → es_prod = 0))
    ∧ (¬(e_can_be_negative = true ∧ c = carrier_y) →
      c_es_con_max_rule e_can_be_negative c carrier_y time_res_t e_cap
          es_con
        = .eq es_con 0
      ∧ ((c_es_con_max_rule e_can_be_negative c carrier_y time_res_t
          e_cap es_con).holds → es_con = 0)) := by
  constructor
  · intro h
    refine ⟨by simp [c_es_prod_max_rule, h], fun hh => ?_⟩
    simpa [c_es_prod_max_rule, h, Constr.holds] using hh
  · intro h
    have hcond : ¬ ((e_can_be_negative && (c = carrier_y)) = true) := by
      simp only [Bool.and_eq_true, decide_eq_true_eq]
      exact h
    refine ⟨by simp only [c_es_con_max_rule, if_neg hcond], fun hh => ?_⟩
    simp only [c_es_con_max_rule, if_neg hcond, Constr.holds] at hh
    exact hh

end Calliope
